import Mathlib

/-!
Verification development for the Caliper Fabric adapter core:
the transaction submission and confirmation engine, the query engine,
the commit-event registration logic, the target-selection cache, and the
network-configuration validation with its accessors.

The definitions below are shallow embeddings of the JavaScript source.
External collaborators (the Fabric client library, wall-clock time, the
network) are represented by explicit outcome values handed to the model,
so each model function is a pure function of a configuration and an
environment describing what the external calls returned.

Conventions used throughout:
  - a thrown JavaScript exception is an error value of an Except type;
  - machine time stamps are natural numbers (milliseconds);
  - per-target annotations written through TxStatus.Set are recorded as a
    list of the annotation keys (the stored values are wall-clock stamps
    or log texts that no property below inspects; the keys carry the
    target names);
  - error-message strings are abbreviated relative to the source (no
    property below inspects message text, only the success or error
    shape of the result).
-/

/- ================================================================
   TxStatus: the per-call status object (caliper-core).
   ================================================================ -/

/-- Final verdict stored in a TxStatus: the status starts out unset
(created), and is set exactly once by the owning engine. -/
inductive TxVerdict where
  | unset
  | success
  | fail
deriving DecidableEq, Repr

/-- Modelled from the spec: the TxStatus record of section 3 (the class
itself lives in caliper-core and is not among the provided sources; the
fields follow its use in the adapter). It carries the final verdict, the
commit time recorded by SetStatusSuccess, the verification flag, the last
recorded result payload, and the keys of the annotations written through
Set. -/
structure TxStatus where
  verdict : TxVerdict := TxVerdict.unset
  finalTime : Option Nat := none
  verified : Bool := false
  result : Option String := none
  recordedKeys : List String := []
deriving DecidableEq, Repr

/-- TxStatus.Set(key, value): records a keyed annotation. -/
def TxStatus.set (st : TxStatus) (key : String) : TxStatus :=
  { st with recordedKeys := st.recordedKeys ++ [key] }

/-- TxStatus.SetVerification(value). -/
def TxStatus.setVerification (st : TxStatus) (v : Bool) : TxStatus :=
  { st with verified := v }

/-- TxStatus.SetResult(payload): the last write prevails. -/
def TxStatus.setResult (st : TxStatus) (payload : String) : TxStatus :=
  { st with result := some payload }

/-- TxStatus.SetStatusFail(). -/
def TxStatus.setStatusFail (st : TxStatus) : TxStatus :=
  { st with verdict := TxVerdict.fail }

/-- TxStatus.SetStatusSuccess(time): marks success and records the final
commit time (the query path passes no time). -/
def TxStatus.setStatusSuccess (st : TxStatus) (time : Option Nat) : TxStatus :=
  { st with verdict := TxVerdict.success, finalTime := time }

/- ================================================================
   Environment of one _submitSingleTransaction call.
   ================================================================ -/

/-- One element of the proposal-response array returned by
channel.sendTransactionProposal: either an Error object (transport or
chaincode error reported per target) or a genuine proposal response with
an application status code, payloads, and the outcome that
channel.verifyProposalResponse would report for it. -/
inductive ProposalResponseValue where
  | jsError (message : String)
  | response (status : Nat) (message : String) (payload : String) (verifyOk : Bool)
deriving DecidableEq, Repr

/-- Outcome of the endorsement-proposal round trip as a whole. -/
inductive ProposalPhaseOutcome where
  | threw (message : String)
  | responded (responses : List ProposalResponseValue)
deriving DecidableEq, Repr

/-- Outcome of channel.sendTransaction (the broadcast to the orderer):
either the call threw (transport error, or the local timeout wrapper
rejected), or an acknowledgement with the given status string arrived. -/
inductive BroadcastOutcome where
  | threw (message : String)
  | acknowledged (status : String)
deriving DecidableEq, Repr

/-- The value each commit-event registration promise resolves to
(see _createEventRegistrationPromise): successful flag, message, and the
local time of resolution. -/
structure EventNotification where
  successful : Bool
  message : String
  time : Nat
deriving DecidableEq, Repr

/-- Adapter configuration fields read by the submission path. The latency
threshold is an exact rational so that the quantile index is computed
precisely. -/
structure FabricConfig where
  verifyProposalResponse : Bool
  verifyReadWriteSets : Bool
  latencyThreshold : ℚ
deriving DecidableEq, Repr

/-- Environment of one _submitSingleTransaction call: the identity lookup
outcome, the resolved target peers and orderer, and the outcome of each
external interaction in the order the code performs them. The list
eventResults holds the resolution of every registered commit-event
promise (one per event source of the channel, see the registration
model below, which shows each promise always resolves). -/
structure SubmitEnv where
  invokerIdentity : String
  invokerKnown : Bool
  targetPeers : List String
  proposal : ProposalPhaseOutcome
  rwSetsMatch : Bool
  targetOrderer : String
  broadcast : BroadcastOutcome
  eventResults : List EventNotification
deriving DecidableEq, Repr

/-- A value thrown inside the guarded try block: either the collected
errors array (the expected shape) or a single JavaScript error object
(the unexpected shape, for example a TypeError from dereferencing
undefined). -/
inductive Thrown where
  | errorsArray (messages : List String)
  | jsError (message : String)
deriving DecidableEq, Repr

/-- JavaScript array indexing with a possibly negative index: a negative
index (and any out-of-bounds index) yields undefined. -/
def jsIndex (l : List α) (i : Int) : Option α :=
  if 0 ≤ i then l[i.toNat]? else none

/-- Ascending-by-time order used to sort commit notifications. -/
def eventTimeLe (a b : EventNotification) : Prop :=
  a.time ≤ b.time

instance : DecidableRel eventTimeLe :=
  fun a b => inferInstanceAs (Decidable (a.time ≤ b.time))

instance : IsTotal EventNotification eventTimeLe :=
  ⟨fun a b => Nat.le_total a.time b.time⟩

instance : IsTrans EventNotification eventTimeLe :=
  ⟨fun _ _ _ h₁ h₂ => Nat.le_trans h₁ h₂⟩

/-- The forEach loop over the proposal responses: records annotations
keyed by the target at the same index, collects error messages, and
eagerly saves the last response payload as the result. Mirrors the
checking block of _submitSingleTransaction. -/
def processProposalResponses (cfg : FabricConfig) (targets : List String) :
    List ProposalResponseValue → Nat → TxStatus → List String → TxStatus × List String
  | [], _, st, errs => (st, errs)
  | v :: rest, idx, st, errs =>
    let targetName := (targets[idx]?).getD "undefined"
    match v with
    | ProposalResponseValue.jsError m =>
      processProposalResponses cfg targets rest (idx + 1)
        ((st.set ("proposal_response_error_" ++ targetName)).setVerification true)
        (errs ++ ["Proposal response error by " ++ targetName ++ ": " ++ m])
    | ProposalResponseValue.response status message payload verifyOk =>
      let st := ((st.setResult payload).set ("endorsement_result_" ++ targetName)).set "rwset_payload"
      if cfg.verifyProposalResponse && !verifyOk then
        processProposalResponses cfg targets rest (idx + 1)
          ((st.set ("endorsement_verify_error_" ++ targetName)).setVerification true)
          (errs ++ ["Could not verify endorsement signature or identity of " ++ targetName])
      else if status ≠ 200 then
        processProposalResponses cfg targets rest (idx + 1)
          ((st.set ("endorsement_result_error_" ++ targetName)).setVerification true)
          (errs ++ ["Endorsement denied by " ++ targetName ++ ": " ++ message])
      else
        processProposalResponses cfg targets rest (idx + 1) st errs

/-- The event-result processing block of _submitSingleTransaction: if
any notification is unsuccessful the status is marked failed; otherwise
the notifications are sorted ascending by finish time and the one at the
latency-threshold quantile index supplies the recorded commit time (an
out-of-range index dereferences undefined and throws a TypeError). -/
def processEventResults (cfg : FabricConfig) (eventResults : List EventNotification)
    (st : TxStatus) : TxStatus × Option Thrown :=
  let failedNotifications := eventResults.filter (fun er => !er.successful)
  if 0 < failedNotifications.length then (st.setStatusFail, none)
  else
    let sorted := List.insertionSort eventTimeLe eventResults
    let thresholdIndex : Int := Int.ceil ((eventResults.length : ℚ) * cfg.latencyThreshold - 1)
    match jsIndex sorted thresholdIndex with
    | none => (st, some (Thrown.jsError "TypeError: cannot read time of undefined"))
    | some ev => (st.setStatusSuccess (some ev.time), none)

/-- Body of the guarded try block of _submitSingleTransaction: returns
the mutated status together with the value thrown, if any. The commit
event registrations are created between the read/write-set check and the
broadcast; their resolutions are the eventResults of the environment. -/
def submitTryBody (cfg : FabricConfig) (env : SubmitEnv) (st : TxStatus) :
    TxStatus × Option Thrown :=
  match env.proposal with
  | ProposalPhaseOutcome.threw m =>
    (((st.set "time_endorse").set "proposal_error").setVerification true,
     some (Thrown.errorsArray [m]))
  | ProposalPhaseOutcome.responded responses =>
    let st := st.set "time_endorse"
    let pr := processProposalResponses cfg env.targetPeers responses 0 st []
    let st := pr.1
    let errs := pr.2
    if 0 < errs.length then (st, some (Thrown.errorsArray errs))
    else if cfg.verifyReadWriteSets && !env.rwSetsMatch then
      ((st.set "read_write_set_error").setVerification true,
       some (Thrown.errorsArray ["Read/Write set mismatch between endorsements"]))
    else
      let broadcastStep :=
        match env.broadcast with
        | BroadcastOutcome.threw _ =>
          (st.set ("broadcast_error_" ++ env.targetOrderer), (none : Option String))
        | BroadcastOutcome.acknowledged s => (st, some s)
      let st := broadcastStep.1.set "time_orderer_ack"
      match broadcastStep.2 with
      | none =>
        -- broadcastResponse is undefined here, so reading its status
        -- property throws a TypeError
        (st, some (Thrown.jsError "TypeError: cannot read status of undefined"))
      | some status =>
        if status ≠ "SUCCESS" then
          ((st.set ("broadcast_response_error_" ++ env.targetOrderer)).setVerification true,
           some (Thrown.errorsArray [env.targetOrderer ++ " response error with status " ++ status]))
        else
          processEventResults cfg env.eventResults st

/-- The catch handler at the end of _submitSingleTransaction: the status
is marked failed, and a thrown value that is not the expected errors
array is additionally recorded as an unexpected error. -/
def submitCatch (st : TxStatus) (t : Thrown) : TxStatus :=
  let st := st.setStatusFail
  match t with
  | Thrown.errorsArray _ => st
  | Thrown.jsError _ => st.set "unexpected_error"

/-- Model of _submitSingleTransaction: an unknown invoker identity is thrown to
the caller; every other path returns the TxStatus, with the try block
guarded by the terminal catch handler. -/
def submitSingleTransaction (cfg : FabricConfig) (env : SubmitEnv) : Except String TxStatus :=
  if !env.invokerKnown then
    Except.error ("Invoker " ++ env.invokerIdentity ++ " not found!")
  else
    let st := (TxStatus.mk TxVerdict.unset none false none []).set "request_type"
    match submitTryBody cfg env st with
    | (st, none) => Except.ok st
    | (st, some t) => Except.ok (submitCatch st t)

/- ================================================================
   Commit-event registration (_createEventRegistrationPromise).
   ================================================================ -/

/-- The three stimuli that can reach one (txId, source) registration:
the local timer firing, a genuine transaction event carrying a
validation code, or an event-hub error. Each carries the local time at
which it is handled. -/
inductive EventTrigger where
  | timeout (now : Nat)
  | txEvent (code : String) (now : Nat)
  | hubError (message : String) (now : Nat)
deriving DecidableEq, Repr

/-- State of one registration: whether the timer is still pending,
whether the transaction listener is still registered on the hub, the
resolution of the promise (none while pending), and the invoke status
the callbacks annotate. -/
structure RegistrationState where
  timerActive : Bool
  registered : Bool
  resolution : Option EventNotification
  status : TxStatus
deriving DecidableEq, Repr

/-- State right after _createEventRegistrationPromise returns: the timer
is armed for the remaining time budget, the transaction listener is
registered, and the promise is pending. -/
def initialRegistrationState (st : TxStatus) : RegistrationState :=
  RegistrationState.mk true true none st

/-- A trigger can fire only while its callback is still wired: the timer
handler requires a pending timer, and the two hub callbacks require the
transaction listener to still be registered. -/
def triggerEnabled (s : RegistrationState) : EventTrigger → Bool
  | EventTrigger.timeout _ => s.timerActive
  | EventTrigger.txEvent _ _ => s.registered
  | EventTrigger.hubError _ _ => s.registered

/-- Resolving a JavaScript promise is idempotent: only the first call
determines the resolution. -/
def resolveOnce (s : RegistrationState) (r : EventNotification) : Option EventNotification :=
  match s.resolution with
  | none => some r
  | some r₀ => some r₀

/-- One callback of _createEventRegistrationPromise handling its
trigger, for the event source of the given peer.  The timeout handler
unregisters the transaction listener and resolves with a synthetic
unsuccessful timeout outcome; the transaction-event handler cancels the
timer, unregisters, marks the status verified, and resolves according to
the commit code; the error handler cancels the timer, unregisters, and
resolves with an unsuccessful outcome. -/
def registrationStep (peer : String) (s : RegistrationState) : EventTrigger → RegistrationState
  | EventTrigger.timeout now =>
    { timerActive := false
      registered := false
      resolution := resolveOnce s
        (EventNotification.mk false ("Commit timeout on " ++ peer) now)
      status := s.status.set ("commit_timeout_" ++ peer) }
  | EventTrigger.txEvent code now =>
    if code ≠ "VALID" then
      { timerActive := false
        registered := false
        resolution := resolveOnce s
          (EventNotification.mk false ("Commit error on " ++ peer ++ " with code " ++ code) now)
        status := ((s.status.setVerification true).set ("commit_error_" ++ peer)) }
    else
      { timerActive := false
        registered := false
        resolution := resolveOnce s (EventNotification.mk true "undefined" now)
        status := ((s.status.setVerification true).set ("commit_success_" ++ peer)) }
  | EventTrigger.hubError _ now =>
    { timerActive := false
      registered := false
      resolution := resolveOnce s
        (EventNotification.mk false ("Event hub error on " ++ peer) now)
      status := s.status.set ("event_hub_error_" ++ peer) }

/- ================================================================
   Query path (_submitSingleQuery).
   ================================================================ -/

instance {α β : Type} [DecidableEq α] [DecidableEq β] : DecidableEq (Except α β) :=
  fun a b =>
    match a, b with
    | Except.ok x, Except.ok y => decidable_of_iff (x = y) (by simp)
    | Except.error x, Except.error y => decidable_of_iff (x = y) (by simp)
    | Except.ok _, Except.error _ => Decidable.isFalse (by simp)
    | Except.error _, Except.ok _ => Decidable.isFalse (by simp)

/-- Outcome of channel.queryByChaincode: either the call threw (or the
local timeout wrapper rejected), or it returned an array holding, per
target peer, either an Error object or a payload. -/
inductive QueryPhaseOutcome where
  | threw (message : String)
  | responded (results : List (Except String String))
deriving DecidableEq, Repr

/-- Environment of one _submitSingleQuery call. -/
structure QueryEnv where
  invokerIdentity : String
  invokerKnown : Bool
  targetPeers : List String
  queryOutcome : QueryPhaseOutcome
deriving DecidableEq, Repr

/-- The forEach loop over the query results: an Error value records a
per-target annotation and overwrites the pending error message, any
other value is recorded as the (last-write-wins) result. Returns the
mutated status and the final error message, if any. -/
def processQueryResults (targets : List String) :
    List (Except String String) → Nat → TxStatus → Option String → TxStatus × Option String
  | [], _, st, errMsg => (st, errMsg)
  | v :: rest, idx, st, errMsg =>
    let targetName := (targets[idx]?).getD "undefined"
    match v with
    | Except.error m =>
      processQueryResults targets rest (idx + 1)
        (st.set ("endorsement_result_error_" ++ targetName))
        (some ("Endorsement error from " ++ targetName ++ ": " ++ m))
    | Except.ok payload =>
      processQueryResults targets rest (idx + 1)
        ((st.setResult payload).set ("endorsement_result_" ++ targetName))
        errMsg

/-- Model of _submitSingleQuery: an unknown invoker identity is thrown to the
caller; the query round trip and result check run inside the guarded
try block, and the status is marked verified up front. -/
def submitSingleQuery (env : QueryEnv) : Except String TxStatus :=
  if !env.invokerKnown then
    Except.error ("Invoker " ++ env.invokerIdentity ++ " not found!")
  else
    let st := ((TxStatus.mk TxVerdict.unset none false none []).set "request_type").setVerification true
    match env.queryOutcome with
    | QueryPhaseOutcome.threw _ =>
      Except.ok ((st.setStatusFail).set "unexpected_error")
    | QueryPhaseOutcome.responded results =>
      let pr := processQueryResults env.targetPeers results 0 st none
      match pr.2 with
      | some _ => Except.ok pr.1.setStatusFail
      | none => Except.ok (pr.1.setStatusSuccess none)

/- ================================================================
   Target-selection cache (_prepareCaches and
   _assembleRandomTargetPeers).
   ================================================================ -/

/-- Insertion into a JavaScript Set preserves first-occurrence order. -/
def insertUnique (l : List String) (x : String) : List String :=
  if x ∈ l then l else l ++ [x]

/-- The per-(channel, chaincode) entry built by _prepareCaches: the
organizations owning a target peer, in first-occurrence order of the
target-peer set, each mapped to the peers of that organization on the
channel that are also targets of the chaincode.  The inputs are the
target-peer set of the chaincode on the channel, the owning organization
of each peer, and the peers of each organization on the channel, as the
topology accessors return them. -/
def prepareTargetPeerCacheEntry (targetPeers : List String)
    (orgOf : String → String) (peersOfOrgAndChannel : String → List String) :
    List (String × List String) :=
  let targetOrgs := targetPeers.foldl (fun acc p => insertUnique acc (orgOf p)) []
  targetOrgs.map (fun org =>
    (org, (peersOfOrgAndChannel org).filter (fun p => p ∈ targetPeers)))

/-- JavaScript selection peers[counter % peers.length]: undefined when
the list is empty (the modulus is NaN), one defined element otherwise. -/
def pickByCounter (peers : List String) (counter : Nat) : Option String :=
  peers[counter % peers.length]?

/-- Model of _assembleRandomTargetPeers over a prepared cache entry: for every
organization of the entry, the peer at the load-balancing counter modulo
the length of the per-organization list. -/
def assembleRandomTargetPeers (cache : List (String × List String)) (counter : Nat) :
    List (Option String) :=
  cache.map (fun e => pickByCounter e.2 counter)

/- ================================================================
   Network configuration model (FabricNetwork).

   The dynamically typed configuration document is represented by a
   closed set of record types.  Property-presence assertions on
   properties that the model types as mandatory fields always succeed
   and are not repeated here; optional properties are Option or Bool
   fields.  Key/certificate path contents and path normalization are
   not modelled (no claim depends on them).  Channel peer entries are
   modelled by their names; the optional per-peer role flags take their
   defaults, under which every channel peer is an eligible target.
   ================================================================ -/

/-- A client entry: its organization, and which of the three identity
provisioning options it carries. -/
structure ClientConfig where
  name : String
  organization : String
  hasCryptoMaterial : Bool
  hasEnrollSecret : Bool
  hasAffiliation : Bool
deriving DecidableEq, Repr

/-- A chaincode entry of a channel. -/
structure ChaincodeEntry where
  id : String
  version : String
  contractID : Option String
  language : Option String
  targetPeers : Option (List String)
  solidityMaterialOk : Bool
deriving DecidableEq, Repr

/-- A channel entry. -/
structure ChannelConfig where
  name : String
  created : Bool
  hasConfigBinary : Bool
  hasConfigUpdateObject : Bool
  orderers : List String
  peers : List String
  chaincodes : List ChaincodeEntry
  evmProxyTargetPeers : Option (List String)
deriving DecidableEq, Repr

/-- An organization entry.  An empty certificateAuthorities list models
an absent property. -/
structure OrgConfig where
  name : String
  mspid : String
  peers : List String
  certificateAuthorities : List String
deriving DecidableEq, Repr

/-- An orderer node entry. -/
structure OrdererConfig where
  name : String
  url : String
  hasTlsCaCerts : Bool
deriving DecidableEq, Repr

/-- A peer node entry. -/
structure PeerConfig where
  name : String
  url : String
  eventUrl : Option String
  hasTlsCaCerts : Bool
deriving DecidableEq, Repr

/-- A certificate-authority entry. -/
structure CaConfig where
  name : String
  url : String
  hasRegistrar : Bool
  hasTlsCaCerts : Bool
deriving DecidableEq, Repr

/-- The whole configuration document. -/
structure NetworkConfig where
  mutualTls : Bool
  clients : List ClientConfig
  channels : List ChannelConfig
  organizations : List OrgConfig
  orderers : List OrdererConfig
  peers : List PeerConfig
  certificateAuthorities : List CaConfig
deriving DecidableEq, Repr

/-- Names of the global peer section. -/
def peerNames (cfg : NetworkConfig) : List String :=
  cfg.peers.map (fun p => p.name)

/-- Names of the global orderer section. -/
def ordererNames (cfg : NetworkConfig) : List String :=
  cfg.orderers.map (fun o => o.name)

/-- Names of the certificate-authority section. -/
def caNames (cfg : NetworkConfig) : List String :=
  cfg.certificateAuthorities.map (fun c => c.name)

/-- One character list starts with another. -/
def charsStartWith : List Char → List Char → Bool
  | [], _ => true
  | _ :: _, [] => false
  | a :: as, b :: bs => a == b && charsStartWith as bs

/-- The first string starts with the second (the builtin startsWith of
strings, re-stated by structural recursion over the character lists so
that it evaluates inside the kernel). -/
def urlStartsWith (s pat : String) : Bool :=
  charsStartWith pat.data s.data

/-- assertNodeExists applied to each element of a reference list, in
order (assertAllNodesExist after its emptiness guard). -/
def assertEachNodeExists (location : String) (existing : List String) :
    List String → Except String Unit
  | [] => Except.ok ()
  | n :: rest =>
    if existing.contains n then assertEachNodeExists location existing rest
    else Except.error (location ++ "." ++ n ++ " is not a valid node reference")

/-- assertAllNodesExist: an empty reference list is rejected, then every
reference must name an existing node. -/
def assertAllNodesExist (nodes existing : List String) (location : String) :
    Except String Unit :=
  if nodes.length < 1 then Except.error (location ++ " is an empty reference list")
  else assertEachNodeExists location existing nodes

/-- The size property read on a JavaScript array: arrays expose length,
not size, so the read yields undefined. -/
def jsArraySizeProperty (_l : List α) : Option Nat :=
  none

/-- A JavaScript less-than comparison whose left side may be undefined:
undefined converts to NaN and every NaN comparison is false. -/
def jsLtNum (x : Option Nat) (n : Nat) : Bool :=
  match x with
  | some v => decide (v < n)
  | none => false

/-- getTargetPeersOfChaincodeOfChannel: the explicit target-peer list of
the chaincode, or by default the target peers of the channel (all
channel peers under the default role flags). -/
def targetPeersOfChaincodeOfChannel (cc : ChaincodeEntry) (ch : ChannelConfig) : List String :=
  match cc.targetPeers with
  | some tps => tps
  | none => ch.peers

/-- The synthesized EVM proxy chaincode of a channel: its target-peer
set is either given explicitly or is the union of the target peers of
the solidity chaincodes of the channel. -/
def proxyChaincodeEntry (ch : ChannelConfig) : ChaincodeEntry :=
  let tps :=
    match ch.evmProxyTargetPeers with
    | some tps => tps
    | none =>
      (ch.chaincodes.filter (fun cc => cc.language == some "solidity")).foldl
        (fun acc cc => (targetPeersOfChaincodeOfChannel cc ch).foldl insertUnique acc) []
  ChaincodeEntry.mk "evmcc" "v0" (some (ch.name ++ ".#EVM")) (some "golang") (some tps) true

/-- The chaincode collection that the per-chaincode validation loop
iterates: the declared chaincodes, followed by the proxy chaincode when
a solidity chaincode is present (the insertion happens before the loop
and mutates the iterated array). -/
def channelChaincodeList (ch : ChannelConfig) : List ChaincodeEntry :=
  if ch.chaincodes.any (fun cc => cc.language == some "solidity") then
    ch.chaincodes ++ [proxyChaincodeEntry ch]
  else ch.chaincodes

/-- Validation of one chaincode entry: id-at-version must be new on the
channel, the contract ID must be globally new, explicit target peers
must reference existing peers, and a solidity chaincode must carry
usable deployment material (the file-system checks of the source are
abstracted into the solidityMaterialOk field).  Returns the updated
per-channel id set and global contract-ID set. -/
def validateChaincodeEntry (channelName : String) (globalPeerNames : List String)
    (cc : ChaincodeEntry) (seen : List String) (mapping : List String) :
    Except String (List String × List String) := do
  let idAndVersion := cc.id ++ "@" ++ cc.version
  if seen.contains idAndVersion then
    Except.error (idAndVersion ++ " in " ++ channelName ++ " is defined more than once")
  else
    let contractID := cc.contractID.getD cc.id
    if mapping.contains contractID then
      Except.error ("Contract ID " ++ contractID ++ " is used more than once")
    else do
      (match cc.targetPeers with
       | some tps =>
         assertAllNodesExist tps globalPeerNames
           ("channels." ++ channelName ++ ".chaincodes." ++ idAndVersion ++ ".targetPeers")
       | none => Except.ok ())
      (if cc.language == some "solidity" && !cc.solidityMaterialOk then
         Except.error ("channels." ++ channelName ++ ".chaincodes." ++ idAndVersion ++
           " is missing solidity deployment material")
       else Except.ok ())
      Except.ok (seen ++ [idAndVersion], mapping ++ [contractID])

/-- The per-chaincode loop of one channel. -/
def validateChaincodes (channelName : String) (globalPeerNames : List String) :
    List ChaincodeEntry → List String → List String → Except String (List String)
  | [], _, mapping => Except.ok mapping
  | cc :: rest, seen, mapping => do
    let r ← validateChaincodeEntry channelName globalPeerNames cc seen mapping
    validateChaincodes channelName globalPeerNames rest r.1 r.2

/-- Validation of one channel: configuration artifacts must be present
for channels not yet created, the orderer and peer reference lists must
be nonempty and resolve, the (ineffective, see jsArraySizeProperty)
chaincode-count guard runs, and every chaincode entry is validated.
Returns the updated global contract-ID set. -/
def validateChannel (globalOrdererNames globalPeerNames : List String)
    (mapping : List String) (ch : ChannelConfig) : Except String (List String) := do
  (if !ch.created && !ch.hasConfigBinary && !ch.hasConfigUpdateObject then
     Except.error ("network.channels." ++ ch.name ++ ".configUpdateObject property missing")
   else Except.ok ())
  assertAllNodesExist ch.orderers globalOrdererNames ("channels." ++ ch.name ++ ".orderers")
  assertAllNodesExist ch.peers globalPeerNames ("channels." ++ ch.name ++ ".peers")
  (if jsLtNum (jsArraySizeProperty ch.chaincodes) 1 then
     Except.error ("channels." ++ ch.name ++ ".chaincodes does not contain any elements")
   else Except.ok ())
  validateChaincodes ch.name globalPeerNames (channelChaincodeList ch) [] mapping

/-- The channel section loop, threading the global contract-ID set. -/
def validateChannels (globalOrdererNames globalPeerNames : List String) :
    List ChannelConfig → List String → Except String (List String)
  | [], mapping => Except.ok mapping
  | ch :: rest, mapping => do
    let mapping ← validateChannel globalOrdererNames globalPeerNames mapping ch
    validateChannels globalOrdererNames globalPeerNames rest mapping

/-- Validation of one client entry: crypto material is self-contained,
an enrollment secret requires the CA of the organization of the client,
and otherwise a registration affiliation is mandatory and the CA of the
organization is required as well.  Returns the organizations whose CA
became required. -/
def validateClient (c : ClientConfig) : Except String (List String) :=
  if c.hasCryptoMaterial then Except.ok []
  else if c.hasEnrollSecret then Except.ok [c.organization]
  else if !c.hasAffiliation then
    Except.error ("network.clients." ++ c.name ++ ".affiliation property missing")
  else Except.ok [c.organization]

/-- The client section loop, collecting the required CA organizations. -/
def validateClients : List ClientConfig → List String → Except String (List String)
  | [], requiredCas => Except.ok requiredCas
  | c :: rest, requiredCas => do
    let r ← validateClient c
    validateClients rest (requiredCas ++ r)

/-- Validation of one organization: its peer list must be nonempty and
resolve against the global peer section, and its CA references, when
present, must resolve against the CA section. -/
def validateOrganization (globalPeerNames globalCaNames : List String)
    (o : OrgConfig) : Except String Unit := do
  assertAllNodesExist o.peers globalPeerNames ("organizations." ++ o.name ++ ".peers")
  (if o.certificateAuthorities.isEmpty then Except.ok ()
   else assertAllNodesExist o.certificateAuthorities globalCaNames
     ("organizations." ++ o.name ++ ".certificateAuthorities"))

/-- The organization section loop. -/
def validateOrganizations (globalPeerNames globalCaNames : List String) :
    List OrgConfig → Except String Unit
  | [] => Except.ok ()
  | o :: rest => do
    validateOrganization globalPeerNames globalCaNames o
    validateOrganizations globalPeerNames globalCaNames rest

/-- The orderer section loop: a secured endpoint switches the global TLS
flag on and requires TLS CA certificates. -/
def validateOrderers : List OrdererConfig → Bool → Except String Bool
  | [], tls => Except.ok tls
  | o :: rest, tls =>
    if urlStartsWith o.url "grpcs://" then
      if o.hasTlsCaCerts then validateOrderers rest true
      else Except.error ("network.orderers." ++ o.name ++ ".tlsCACerts property missing")
    else validateOrderers rest tls

/-- The TLS-flag update of one peer: a secured endpoint switches the
flag on and requires TLS CA certificates. -/
def peerTlsFlag (p : PeerConfig) (tls : Bool) : Except String Bool :=
  if urlStartsWith p.url "grpcs://" then
    if p.hasTlsCaCerts then Except.ok true
    else Except.error ("network.peers." ++ p.name ++ ".tlsCACerts property missing")
  else Except.ok tls

/-- Validation of one peer: a secured endpoint switches the TLS flag on
and requires TLS CA certificates; an event URL switches compatibility
mode on and must agree with the transaction URL on the protocol. -/
def validatePeer (p : PeerConfig) (tls compat : Bool) : Except String (Bool × Bool) :=
  match peerTlsFlag p tls with
  | Except.error e => Except.error e
  | Except.ok tls2 =>
    match p.eventUrl with
    | none => Except.ok (tls2, compat)
    | some ev =>
      if (urlStartsWith p.url "grpcs://" && urlStartsWith ev "grpc://")
          || (urlStartsWith p.url "grpc://" && urlStartsWith ev "grpcs://") then
        Except.error (p.name ++ " uses different protocols for the transaction and event services")
      else Except.ok (tls2, true)

/-- The peer section loop. -/
def validatePeers : List PeerConfig → Bool → Bool → Except String (Bool × Bool)
  | [], tls, compat => Except.ok (tls, compat)
  | p :: rest, tls, compat => do
    let r ← validatePeer p tls compat
    validatePeers rest r.1 r.2

/-- In compatibility mode every peer must provide an event URL. -/
def checkCompatibilityEventUrls : List PeerConfig → Except String Unit
  | [] => Except.ok ()
  | p :: rest =>
    match p.eventUrl with
    | none => Except.error (p.name ++ " does not provide an event URL in compatibility mode")
    | some _ => checkCompatibilityEventUrls rest

/-- getOrganizationOfCertificateAuthority: the first organization whose
CA references include the CA. -/
def getOrganizationOfCa (orgs : List OrgConfig) (ca : String) : Except String String :=
  match orgs.find? (fun o => o.certificateAuthorities.contains ca) with
  | some o => Except.ok o.name
  | none => Except.error ("Could not find the owner organization of " ++ ca)

/-- The provided-CA update of one CA: a registrar contributes the
owning organization of the CA to the provided set. -/
def caProvidedOrgs (orgs : List OrgConfig) (ca : CaConfig) (providedCas : List String) :
    Except String (List String) :=
  if ca.hasRegistrar then
    match getOrganizationOfCa orgs ca.name with
    | Except.error e => Except.error e
    | Except.ok org => Except.ok (providedCas ++ [org])
  else Except.ok providedCas

/-- The TLS-flag update of one CA: a secured endpoint switches the flag
on and requires TLS CA certificates. -/
def caTlsFlag (ca : CaConfig) (tls : Bool) : Except String Bool :=
  if urlStartsWith ca.url "https://" then
    if ca.hasTlsCaCerts then Except.ok true
    else Except.error ("network.certificateAuthorities." ++ ca.name ++
      ".tlsCACerts property missing")
  else Except.ok tls

/-- The CA section loop: a CA with a registrar contributes the CA of its
owning organization to the provided set, and a secured endpoint
switches the TLS flag on and requires TLS CA certificates. -/
def validateCas (orgs : List OrgConfig) :
    List CaConfig → Bool → List String → Except String (Bool × List String)
  | [], tls, providedCas => Except.ok (tls, providedCas)
  | ca :: rest, tls, providedCas =>
    match caProvidedOrgs orgs ca providedCas with
    | Except.error e => Except.error e
    | Except.ok pc2 =>
      match caTlsFlag ca tls with
      | Except.error e => Except.error e
      | Except.ok t2 => validateCas orgs rest t2 pc2

/-- TLS-consistency check over the orderers: certificates must be
present and the endpoint must be secured. -/
def checkOrderersTls : List OrdererConfig → Except String Unit
  | [] => Except.ok ()
  | o :: rest =>
    if !o.hasTlsCaCerts then
      Except.error ("network.orderers." ++ o.name ++ ".tlsCACerts property missing")
    else if !(urlStartsWith o.url "grpcs://") then
      Except.error (o.name ++ " does not use the grpcs protocol, but TLS is configured on other nodes")
    else checkOrderersTls rest

/-- TLS-consistency check over the peers, including the event URL in
compatibility mode (every peer has an event URL by this point). -/
def checkPeersTls (compat : Bool) : List PeerConfig → Except String Unit
  | [] => Except.ok ()
  | p :: rest =>
    if !p.hasTlsCaCerts then
      Except.error ("network.peers." ++ p.name ++ ".tlsCACerts property missing")
    else if !(urlStartsWith p.url "grpcs://") then
      Except.error (p.name ++ " does not use the grpcs protocol, but TLS is configured on other nodes")
    else if compat && !(urlStartsWith (p.eventUrl.getD "") "grpcs://") then
      Except.error (p.name ++ " does not use the grpcs protocol for eventing, but TLS is configured on other nodes")
    else checkPeersTls compat rest

/-- TLS-consistency check over the certificate authorities. -/
def checkCasTls : List CaConfig → Except String Unit
  | [] => Except.ok ()
  | ca :: rest =>
    if !ca.hasTlsCaCerts then
      Except.error ("network.certificateAuthorities." ++ ca.name ++ ".tlsCACerts property missing")
    else if !(urlStartsWith ca.url "https://") then
      Except.error (ca.name ++ " does not use the https protocol, but TLS is configured on other nodes")
    else checkCasTls rest

/-- The whole TLS-consistency pass: orderers, peers, CAs. -/
def checkTlsConsistencyAll (cfg : NetworkConfig) (compat : Bool) : Except String Unit := do
  checkOrderersTls cfg.orderers
  checkPeersTls compat cfg.peers
  checkCasTls cfg.certificateAuthorities

/-- Model of _validateNetworkConfiguration: the one-time, all-or-nothing
validation pass over the whole configuration document, in source
order: clients, channels, organizations, orderers, peers, certificate
authorities, required-CA coverage, TLS-consistency, mutual-TLS rules. -/
def validateNetworkConfiguration (cfg : NetworkConfig) : Except String Unit := do
  (if cfg.clients.length < 1 then
     Except.error "The clients section does not contain any entries"
   else Except.ok ())
  let requiredCas ← validateClients cfg.clients []
  (if cfg.channels.length < 1 then
     Except.error "The channels section does not contain any entries"
   else Except.ok ())
  let _ ← validateChannels (ordererNames cfg) (peerNames cfg) cfg.channels []
  (if cfg.organizations.length < 1 then
     Except.error "The organizations section does not contain any entries"
   else Except.ok ())
  validateOrganizations (peerNames cfg) (caNames cfg) cfg.organizations
  (if cfg.orderers.length < 1 then
     Except.error "The orderers section does not contain any entries"
   else Except.ok ())
  let tls ← validateOrderers cfg.orderers false
  (if cfg.peers.length < 1 then
     Except.error "The peers section does not contain any entries"
   else Except.ok ())
  let r ← validatePeers cfg.peers tls false
  (if r.2 then checkCompatibilityEventUrls cfg.peers else Except.ok ())
  let r2 ← validateCas cfg.organizations cfg.certificateAuthorities r.1 []
  (if 0 < (requiredCas.filter (fun ca => !r2.2.contains ca)).length then
     Except.error "Required CAs and their registrars are not provided"
   else Except.ok ())
  (if r2.1 then checkTlsConsistencyAll cfg r.2 else Except.ok ())
  (if cfg.mutualTls && !r2.1 then
     Except.error "Mutual TLS is configured without using TLS on network nodes"
   else Except.ok ())
  (if cfg.mutualTls && r.2 then
     Except.error "Mutual TLS is not supported for Fabric v1.0"
   else Except.ok ())

/- ================================================================
   Topology accessors used after validation.
   ================================================================ -/

/-- Model of _assertPeerExists. -/
def assertPeerExistsIn (cfg : NetworkConfig) (peer : String) : Except String Unit :=
  if (peerNames cfg).contains peer then Except.ok ()
  else Except.error ("Could not find " ++ peer ++ " in the configuration")

/-- getOrganizationOfPeer: the first organization whose peer list holds
the peer; the lookup throws when no organization owns the peer. -/
def getOrganizationOfPeer (cfg : NetworkConfig) (peer : String) : Except String String := do
  assertPeerExistsIn cfg peer
  match cfg.organizations.find? (fun o => o.peers.contains peer) with
  | some o => Except.ok o.name
  | none => Except.error ("Could not find the owner organization of " ++ peer)

/-- getChannelsOfPeer: the channels whose peer set holds the peer; the
lookup throws when the peer belongs to no channel. -/
def getChannelsOfPeer (cfg : NetworkConfig) (peer : String) : Except String (List String) := do
  assertPeerExistsIn cfg peer
  let result := (cfg.channels.filter (fun ch => ch.peers.contains peer)).map (fun ch => ch.name)
  if result.length = 0 then Except.error (peer ++ " does not belong to any channel")
  else Except.ok result

/- ================================================================
   Predicates describing how far a submission proceeds, and example
   inputs used by the claim witnesses and counterexamples.
   ================================================================ -/

/-- A proposal-response value that raises no endorsement error: a
genuine response with application status 200 that passes signature
verification whenever verification is configured. -/
def responseClean (cfg : FabricConfig) : ProposalResponseValue → Bool
  | ProposalResponseValue.jsError _ => false
  | ProposalResponseValue.response status _ _ verifyOk =>
    status == 200 && (!cfg.verifyProposalResponse || verifyOk)

/-- The call reaches the confirmation phase: the invoker resolves, the
proposal round trip returns only clean responses, and the read/write-set
comparison passes (or is disabled), so the commit-event registrations
are created. -/
def reachesConfirmationPhase (cfg : FabricConfig) (env : SubmitEnv) : Bool :=
  env.invokerKnown &&
  (match env.proposal with
   | ProposalPhaseOutcome.threw _ => false
   | ProposalPhaseOutcome.responded rs => rs.all (responseClean cfg)) &&
  (!cfg.verifyReadWriteSets || env.rwSetsMatch)

/-- The call reaches the event-result processing step: it reaches the
confirmation phase and the broadcast is acknowledged with SUCCESS. -/
def reachesEventPhase (cfg : FabricConfig) (env : SubmitEnv) : Bool :=
  reachesConfirmationPhase cfg env &&
  (match env.broadcast with
   | BroadcastOutcome.threw _ => false
   | BroadcastOutcome.acknowledged s => s == "SUCCESS")

/-- The last non-error payload of a query result array. -/
def lastOkPayload (results : List (Except String String)) : Option String :=
  results.foldl
    (fun acc r => match r with | Except.ok p => some p | Except.error _ => acc) none

/-- At least one node of the configuration declares secured transport. -/
def someNodeSecured (cfg : NetworkConfig) : Bool :=
  cfg.orderers.any (fun o => urlStartsWith o.url "grpcs://") ||
  cfg.peers.any (fun p => urlStartsWith p.url "grpcs://") ||
  cfg.certificateAuthorities.any (fun ca => urlStartsWith ca.url "https://")

/-- Example adapter configuration: both verification steps enabled and
latency threshold 1 (wait for the slowest observer). -/
def exampleFabricConfig : FabricConfig :=
  FabricConfig.mk true true 1

/-- Example environment of a fully successful submission with two event
sources committing at times 5 and 10. -/
def exampleSubmitEnv : SubmitEnv :=
  SubmitEnv.mk "client0.org1" true ["peer0"]
    (ProposalPhaseOutcome.responded [ProposalResponseValue.response 200 "" "payload" true])
    true "orderer0" (BroadcastOutcome.acknowledged "SUCCESS")
    [EventNotification.mk true "undefined" 10, EventNotification.mk true "undefined" 5]

/-- The same submission with a broadcast transport error: the send threw
and no acknowledgement was received, while every commit-event source
still reported a valid commit. -/
def exampleBroadcastErrorEnv : SubmitEnv :=
  { exampleSubmitEnv with broadcast := BroadcastOutcome.threw "ECONNRESET" }

/-- The same submission with an unknown invoker identity. -/
def exampleUnknownInvokerEnv : SubmitEnv :=
  { exampleSubmitEnv with invokerKnown := false }

/-- The same submission where the second event source reports an
invalid commit. -/
def exampleInvalidCommitEnv : SubmitEnv :=
  { exampleSubmitEnv with eventResults :=
      [EventNotification.mk true "undefined" 10,
       EventNotification.mk false "Commit error on peer1 with code MVCC_READ_CONFLICT" 5] }

/-- The verdict and commit time recorded by a submission result. -/
def submitOutcome (r : Except String TxStatus) : Option (TxVerdict × Option Nat) :=
  match r with
  | Except.ok st => some (st.verdict, st.finalTime)
  | Except.error _ => none

/-- Example target-peer inputs (the scenario of the spec: OrgA owns
peers p1 and p2, OrgB owns p3, and the contract targets p1 and p3). -/
def exampleChaincodeTargets : List String := ["p1", "p3"]

/-- Owning organization of each example peer. -/
def exampleOrgOf (p : String) : String :=
  if p == "p3" then "OrgB" else "OrgA"

/-- Peers of each example organization on the channel. -/
def exampleOrgChannelPeers (org : String) : List String :=
  if org == "OrgA" then ["p1", "p2"] else ["p3"]

/-- Example client entry holding its own crypto material. -/
def exampleClient : ClientConfig :=
  ClientConfig.mk "client0.org1" "Org1" true false false

/-- Example chaincode entry. -/
def exampleChaincode : ChaincodeEntry :=
  ChaincodeEntry.mk "marbles" "v0" none none none true

/-- Example channel joining peer0 with one orderer and one chaincode. -/
def exampleChannel : ChannelConfig :=
  ChannelConfig.mk "c1" true false false ["orderer0"] ["peer0"] [exampleChaincode] none

/-- Example organization owning peer0. -/
def exampleOrg : OrgConfig :=
  OrgConfig.mk "Org1" "Org1MSP" ["peer0"] []

/-- Example unsecured orderer. -/
def exampleOrderer : OrdererConfig :=
  OrdererConfig.mk "orderer0" "grpc://localhost:7050" false

/-- Example unsecured peer. -/
def examplePeer : PeerConfig :=
  PeerConfig.mk "peer0" "grpc://localhost:7051" none false

/-- A fully valid, unsecured example configuration. -/
def exampleBaseConfig : NetworkConfig :=
  NetworkConfig.mk false [exampleClient] [exampleChannel] [exampleOrg]
    [exampleOrderer] [examplePeer] []

/-- The example configuration with the chaincode list of the channel
emptied. -/
def exampleEmptyChaincodesConfig : NetworkConfig :=
  { exampleBaseConfig with channels := [{ exampleChannel with chaincodes := [] }] }

/-- The example configuration extended with a peer that no organization
owns and that belongs to no channel. -/
def exampleUnownedPeerConfig : NetworkConfig :=
  { exampleBaseConfig with peers :=
      [examplePeer, PeerConfig.mk "peerX" "grpc://localhost:8051" none false] }

/-- The example configuration with every node switched to secured
transport. -/
def exampleTlsConfig : NetworkConfig :=
  { exampleBaseConfig with
      orderers := [OrdererConfig.mk "orderer0" "grpcs://localhost:7050" true]
      peers := [PeerConfig.mk "peer0" "grpcs://localhost:7051" none true] }

/- ================================================================
   General lemmas.
   ================================================================ -/

/-- Inversion for a successful Except bind. -/
theorem exceptBindOk {ε α β : Type} {a : Except ε α} {f : α → Except ε β} {b : β}
    (h : a >>= f = Except.ok b) : ∃ y, a = Except.ok y ∧ f y = Except.ok b := by
  cases a with
  | ok y => exact ⟨y, rfl, h⟩
  | error e => simp [Bind.bind, Except.bind] at h

/-- The catch handler always leaves a failed verdict. -/
theorem submitCatch_verdict (st : TxStatus) (t : Thrown) :
    (submitCatch st t).verdict = TxVerdict.fail := by
  cases t <;> simp [submitCatch, TxStatus.setStatusFail, TxStatus.set]

/-- Annotation writes do not change the verdict. -/
theorem set_verdict (st : TxStatus) (k : String) : (st.set k).verdict = st.verdict := rfl

/-- A clean response list contributes no endorsement error. -/
theorem processProposalResponses_clean (cfg : FabricConfig) (targets : List String) :
    ∀ (rs : List ProposalResponseValue) (idx : Nat) (st : TxStatus) (errs : List String),
      rs.all (responseClean cfg) = true →
      (processProposalResponses cfg targets rs idx st errs).2 = errs := by
  intro rs
  induction rs with
  | nil => intro idx st errs _; rfl
  | cons v rest ih =>
    intro idx st errs hall
    rw [List.all_cons, Bool.and_eq_true] at hall
    obtain ⟨hv, hrest⟩ := hall
    cases v with
    | jsError m => simp [responseClean] at hv
    | response status message payload verifyOk =>
      simp only [responseClean, Bool.and_eq_true, beq_iff_eq, Bool.or_eq_true,
        Bool.not_eq_true'] at hv
      obtain ⟨hstatus, hver⟩ := hv
      have hcond : (cfg.verifyProposalResponse && !verifyOk) = false := by
        rcases hver with h | h <;> simp [h]
      subst hstatus
      simpa [processProposalResponses, hcond] using ih (idx + 1) _ errs hrest

/-- A call that reaches the confirmation phase is decided by the
broadcast outcome and the event results: a broadcast throw ends in the
TypeError path, an explicit non-success acknowledgement ends in the
rejection path, and a SUCCESS acknowledgement hands over to the
event-result processing. -/
theorem submit_confirmation_shape (cfg : FabricConfig) (env : SubmitEnv)
    (hconf : reachesConfirmationPhase cfg env = true) :
    ∃ stPre : TxStatus,
      submitSingleTransaction cfg env =
        (match env.broadcast with
         | BroadcastOutcome.threw _ =>
           Except.ok (submitCatch
             ((stPre.set ("broadcast_error_" ++ env.targetOrderer)).set "time_orderer_ack")
             (Thrown.jsError "TypeError: cannot read status of undefined"))
         | BroadcastOutcome.acknowledged s =>
           if s ≠ "SUCCESS" then
             Except.ok (submitCatch
               (((stPre.set "time_orderer_ack").set
                   ("broadcast_response_error_" ++ env.targetOrderer)).setVerification true)
               (Thrown.errorsArray [env.targetOrderer ++ " response error with status " ++ s]))
           else
             (match processEventResults cfg env.eventResults (stPre.set "time_orderer_ack") with
              | (st, none) => Except.ok st
              | (st, some t) => Except.ok (submitCatch st t))) := by
  simp only [reachesConfirmationPhase, Bool.and_eq_true] at hconf
  obtain ⟨⟨hk, hprop⟩, hrw⟩ := hconf
  cases hp : env.proposal with
  | threw m => rw [hp] at hprop; simp at hprop
  | responded rs =>
    rw [hp] at hprop
    have hrwcond : (cfg.verifyReadWriteSets && !env.rwSetsMatch) = false := by
      cases hvrw : cfg.verifyReadWriteSets <;> cases hm : env.rwSetsMatch <;>
        simp_all
    refine ⟨(processProposalResponses cfg env.targetPeers rs 0
      (((TxStatus.mk TxVerdict.unset none false none []).set "request_type").set "time_endorse")
      []).1, ?_⟩
    have herrs := processProposalResponses_clean cfg env.targetPeers rs 0
      (((TxStatus.mk TxVerdict.unset none false none []).set "request_type").set "time_endorse")
      [] hprop
    simp only [submitSingleTransaction, hk, Bool.not_true, Bool.false_eq_true, if_false,
      submitTryBody, hp, herrs, List.length_nil, Nat.lt_irrefl, hrwcond]
    cases hb : env.broadcast with
    | threw m => simp
    | acknowledged s => by_cases hs : s = "SUCCESS" <;> simp [hs]

/-- With an unsuccessful notification present, event-result processing
marks the status failed. -/
theorem processEventResults_any_failed (cfg : FabricConfig)
    (events : List EventNotification) (st : TxStatus)
    (hbad : events.any (fun er => !er.successful) = true) :
    processEventResults cfg events st = (st.setStatusFail, none) := by
  have hne : events.filter (fun er => !er.successful) ≠ [] := by
    rw [List.any_eq_true] at hbad
    obtain ⟨er, hmem, her⟩ := hbad
    intro hnil
    have hin : er ∈ events.filter (fun e => !e.successful) :=
      List.mem_filter.mpr ⟨hmem, her⟩
    rw [hnil] at hin
    exact List.not_mem_nil er hin
  have hlen : 0 < (events.filter (fun er => !er.successful)).length :=
    List.length_pos.mpr hne
  simp [processEventResults, hlen]

/-- With every notification successful, event-result processing marks
the status successful and records the commit time of the sorted
notification at the latency-threshold quantile index. -/
theorem processEventResults_all_valid (cfg : FabricConfig)
    (events : List EventNotification) (st : TxStatus)
    (hall : events.all (fun er => er.successful) = true)
    (hne : events ≠ [])
    (hpos : 0 < cfg.latencyThreshold) (hle : cfg.latencyThreshold ≤ 1) :
    ∃ t, processEventResults cfg events st = (st.setStatusSuccess (some t), none) ∧
      (List.insertionSort (fun a b : ℕ => a ≤ b) (events.map (fun er => er.time)))[
        (Int.ceil ((events.length : ℚ) * cfg.latencyThreshold - 1)).toNat]? = some t := by
  have hfilterNil : events.filter (fun er => !er.successful) = [] := by
    rw [List.filter_eq_nil_iff]
    intro er hmem
    rw [List.all_eq_true] at hall
    simp [hall er hmem]
  have hM : 0 < events.length := List.length_pos.mpr hne
  have hMq : (0 : ℚ) < (events.length : ℚ) := by exact_mod_cast hM
  -- bounds of the quantile index
  have hceil_lb : (0 : ℤ) ≤ Int.ceil ((events.length : ℚ) * cfg.latencyThreshold - 1) := by
    have h1 : (-1 : ℚ) < (events.length : ℚ) * cfg.latencyThreshold - 1 := by
      have : (0 : ℚ) < (events.length : ℚ) * cfg.latencyThreshold := mul_pos hMq hpos
      linarith
    have h2 : (-1 : ℤ) < Int.ceil ((events.length : ℚ) * cfg.latencyThreshold - 1) := by
      rw [Int.lt_ceil]
      exact_mod_cast h1
    omega
  have hceil_ub : Int.ceil ((events.length : ℚ) * cfg.latencyThreshold - 1)
      ≤ (events.length : ℤ) - 1 := by
    rw [Int.ceil_le]
    push_cast
    have : (events.length : ℚ) * cfg.latencyThreshold ≤ (events.length : ℚ) * 1 :=
      mul_le_mul_of_nonneg_left hle (le_of_lt hMq)
    linarith
  have hidx : (Int.ceil ((events.length : ℚ) * cfg.latencyThreshold - 1)).toNat
      < events.length := by omega
  have hlen : (List.insertionSort eventTimeLe events).length = events.length :=
    List.length_insertionSort eventTimeLe events
  have hidx2 : (Int.ceil ((events.length : ℚ) * cfg.latencyThreshold - 1)).toNat
      < (List.insertionSort eventTimeLe events).length := by rw [hlen]; exact hidx
  have hsome : ∃ ev, (List.insertionSort eventTimeLe events)[
      (Int.ceil ((events.length : ℚ) * cfg.latencyThreshold - 1)).toNat]? = some ev := by
    rw [List.getElem?_eq_getElem hidx2]
    exact ⟨_, rfl⟩
  obtain ⟨ev, hev⟩ := hsome
  refine ⟨ev.time, ?_, ?_⟩
  · simp only [processEventResults, hfilterNil, List.length_nil, Nat.lt_irrefl,
      Bool.false_eq_true, if_false, jsIndex]
    rw [if_pos hceil_lb, hev]
  · have hperm : ((List.insertionSort eventTimeLe events).map (fun er => er.time)).Perm
        (List.insertionSort (fun a b : ℕ => a ≤ b) (events.map (fun er => er.time))) :=
      ((List.perm_insertionSort eventTimeLe events).map _).trans
        (List.perm_insertionSort _ _).symm
    have hs1 : List.Sorted (fun a b : ℕ => a ≤ b)
        ((List.insertionSort eventTimeLe events).map (fun er => er.time)) :=
      List.Pairwise.map _ (fun a b h => h) (List.sorted_insertionSort eventTimeLe events)
    have hs2 : List.Sorted (fun a b : ℕ => a ≤ b)
        (List.insertionSort (fun a b : ℕ => a ≤ b) (events.map (fun er => er.time))) :=
      List.sorted_insertionSort _ _
    have hmap : (List.insertionSort eventTimeLe events).map (fun er => er.time)
        = List.insertionSort (fun a b : ℕ => a ≤ b) (events.map (fun er => er.time)) :=
      List.eq_of_perm_of_sorted hperm hs1 hs2
    rw [← hmap, List.getElem?_map, hev]
    rfl

/- ================================================================
   Claim theorems.
   ================================================================ -/

/-- Claim C1: for every submit call that reaches the event-processing
step with at least one registered commit-event source, if every source
resolves successfully then the returned TxStatus is successful and its
recorded commit time is the element at 0-based index
ceil(M * threshold - 1) of the per-source commit times sorted ascending,
for a latency threshold in (0, 1]. -/
theorem submit_all_valid_commit_time (cfg : FabricConfig) (env : SubmitEnv)
    (hreach : reachesEventPhase cfg env = true)
    (hall : env.eventResults.all (fun er => er.successful) = true)
    (hne : env.eventResults ≠ [])
    (hpos : 0 < cfg.latencyThreshold) (hle : cfg.latencyThreshold ≤ 1) :
    ∃ st t, submitSingleTransaction cfg env = Except.ok st ∧
      st.verdict = TxVerdict.success ∧ st.finalTime = some t ∧
      (List.insertionSort (fun a b : ℕ => a ≤ b)
          (env.eventResults.map (fun er => er.time)))[
        (Int.ceil ((env.eventResults.length : ℚ) * cfg.latencyThreshold - 1)).toNat]?
        = some t := by
  simp only [reachesEventPhase, Bool.and_eq_true] at hreach
  obtain ⟨hconf, hbroadcast⟩ := hreach
  obtain ⟨stPre, hshape⟩ := submit_confirmation_shape cfg env hconf
  cases hb : env.broadcast with
  | threw m => rw [hb] at hbroadcast; simp at hbroadcast
  | acknowledged s =>
    rw [hb] at hbroadcast
    have hs : s = "SUCCESS" := by simpa using hbroadcast
    subst hs
    obtain ⟨t, hproc, hindex⟩ := processEventResults_all_valid cfg env.eventResults
      (stPre.set "time_orderer_ack") hall hne hpos hle
    have hshape2 : submitSingleTransaction cfg env
        = Except.ok ((stPre.set "time_orderer_ack").setStatusSuccess (some t)) := by
      rw [hshape, hb]
      simp [hproc]
    exact ⟨_, t, hshape2, rfl, rfl, hindex⟩

/-- Witness for C1: two event sources committing at times 5 and 10 with
threshold 1 yield a successful status whose commit time is 10. -/
theorem submit_all_valid_commit_time_witness :
    ∃ st t, submitSingleTransaction exampleFabricConfig exampleSubmitEnv = Except.ok st ∧
      st.verdict = TxVerdict.success ∧ st.finalTime = some t ∧
      (List.insertionSort (fun a b : ℕ => a ≤ b)
          (exampleSubmitEnv.eventResults.map (fun er => er.time)))[
        (Int.ceil ((exampleSubmitEnv.eventResults.length : ℚ)
            * exampleFabricConfig.latencyThreshold - 1)).toNat]? = some t :=
  submit_all_valid_commit_time exampleFabricConfig exampleSubmitEnv (by decide) (by decide)
    (by decide) (by decide) (by decide)

/-- Claim C2: for every submit call that reaches the confirmation phase,
any commit-event source resolving with an unsuccessful outcome makes the
returned TxStatus a failure, regardless of the other sources and of the
broadcast outcome. -/
theorem submit_any_invalid_commit_fails (cfg : FabricConfig) (env : SubmitEnv)
    (hconf : reachesConfirmationPhase cfg env = true)
    (hbad : env.eventResults.any (fun er => !er.successful) = true) :
    ∃ st, submitSingleTransaction cfg env = Except.ok st ∧ st.verdict = TxVerdict.fail := by
  obtain ⟨stPre, hshape⟩ := submit_confirmation_shape cfg env hconf
  cases hb : env.broadcast with
  | threw m =>
    rw [hb] at hshape
    exact ⟨_, hshape, submitCatch_verdict _ _⟩
  | acknowledged s =>
    by_cases hs : s = "SUCCESS"
    · subst hs
      have hshape2 : submitSingleTransaction cfg env
          = Except.ok ((stPre.set "time_orderer_ack").setStatusFail) := by
        rw [hshape, hb]
        simp [processEventResults_any_failed cfg env.eventResults _ hbad]
      exact ⟨_, hshape2, rfl⟩
    · have hshape2 : submitSingleTransaction cfg env
          = Except.ok (submitCatch
              (((stPre.set "time_orderer_ack").set
                  ("broadcast_response_error_" ++ env.targetOrderer)).setVerification true)
              (Thrown.errorsArray [env.targetOrderer ++ " response error with status " ++ s])) := by
        rw [hshape, hb]
        simp [hs]
      exact ⟨_, hshape2, submitCatch_verdict _ _⟩

/-- Witness for C2: one valid and one invalid commit notification end in
a failed status. -/
theorem submit_any_invalid_commit_fails_witness :
    ∃ st, submitSingleTransaction exampleFabricConfig exampleInvalidCommitEnv
        = Except.ok st ∧ st.verdict = TxVerdict.fail :=
  submit_any_invalid_commit_fails exampleFabricConfig exampleInvalidCommitEnv
    (by decide) (by decide)

/-- Claim C3: the spec states that a broadcast transport error lets the
commit events decide the outcome; the code instead dereferences the
undefined broadcast response, and the resulting TypeError is swallowed
by the terminal catch handler, so the call fails with no commit time
even though every commit-event source reported a valid commit. -/
theorem submit_broadcast_transport_error_fails :
    reachesConfirmationPhase exampleFabricConfig exampleBroadcastErrorEnv = true ∧
    exampleBroadcastErrorEnv.broadcast = BroadcastOutcome.threw "ECONNRESET" ∧
    exampleBroadcastErrorEnv.eventResults.all (fun er => er.successful) = true ∧
    submitOutcome (submitSingleTransaction exampleFabricConfig exampleBroadcastErrorEnv)
      = some (TxVerdict.fail, none) := by
  decide

/-- Claim C4: no exception escapes the submission: the call returns a
TxStatus for every combination of proposal, broadcast, and event
outcomes, and throws exactly when the invoker identity is unknown. -/
theorem submit_no_exception_escapes (cfg : FabricConfig) (env : SubmitEnv) :
    (submitSingleTransaction cfg env).isOk = env.invokerKnown ∧
    (env.invokerKnown = false →
      submitSingleTransaction cfg env
        = Except.error ("Invoker " ++ env.invokerIdentity ++ " not found!")) := by
  cases hk : env.invokerKnown with
  | false =>
    have h1 : submitSingleTransaction cfg env
        = Except.error ("Invoker " ++ env.invokerIdentity ++ " not found!") := by
      simp [submitSingleTransaction, hk]
    exact ⟨by rw [h1]; rfl, fun _ => h1⟩
  | true =>
    refine ⟨?_, fun hcontra => by simp [hk] at hcontra⟩
    have hbody : ∃ st, submitSingleTransaction cfg env = Except.ok st := by
      simp only [submitSingleTransaction, hk, Bool.not_true, Bool.false_eq_true, if_false]
      cases hsb : submitTryBody cfg env
          ((TxStatus.mk TxVerdict.unset none false none []).set "request_type") with
      | mk st opt =>
        cases opt with
        | none => exact ⟨st, rfl⟩
        | some t => exact ⟨submitCatch st t, rfl⟩
    obtain ⟨st, hst⟩ := hbody
    rw [hst]
    rfl

/-- Witness for C4: the unknown-invoker environment throws the identity
error, and the fully successful environment returns a status. -/
theorem submit_no_exception_escapes_witness :
    submitSingleTransaction exampleFabricConfig exampleUnknownInvokerEnv
      = Except.error "Invoker client0.org1 not found!" :=
  (submit_no_exception_escapes exampleFabricConfig exampleUnknownInvokerEnv).2 rfl

/-- Everything a successful per-element reference check guarantees. -/
theorem assertEachNodeExists_ok (location : String) (existing : List String) :
    ∀ (nodes : List String), assertEachNodeExists location existing nodes = Except.ok () →
      ∀ n ∈ nodes, existing.contains n = true := by
  intro nodes
  induction nodes with
  | nil => intro _ n hn; exact absurd hn (List.not_mem_nil n)
  | cons x rest ih =>
    intro h n hn
    by_cases hx : existing.contains x = true
    · rcases List.mem_cons.mp hn with rfl | hn2
      · exact hx
      · rw [assertEachNodeExists, if_pos hx] at h
        exact ih h n hn2
    · rw [assertEachNodeExists, if_neg hx] at h
      cases h

/-- A successful reference-list check resolves every reference. -/
theorem assertAllNodesExist_ok (nodes existing : List String) (location : String)
    (h : assertAllNodesExist nodes existing location = Except.ok ()) :
    ∀ n ∈ nodes, existing.contains n = true := by
  rw [assertAllNodesExist] at h
  by_cases hlen : nodes.length < 1
  · rw [if_pos hlen] at h; cases h
  · rw [if_neg hlen] at h
    exact assertEachNodeExists_ok location existing nodes h

/-- A successful organization pass resolves every owned peer against the
global peer section. -/
theorem validateOrganizations_ok (gp gc : List String) :
    ∀ (orgs : List OrgConfig), validateOrganizations gp gc orgs = Except.ok () →
      ∀ o ∈ orgs, ∀ p ∈ o.peers, gp.contains p = true := by
  intro orgs
  induction orgs with
  | nil => intro _ o ho; exact absurd ho (List.not_mem_nil o)
  | cons o rest ih =>
    intro h o2 ho2 p hp
    rw [validateOrganizations] at h
    obtain ⟨u1, hval, h⟩ := exceptBindOk h
    rcases List.mem_cons.mp ho2 with rfl | ho3
    · rw [validateOrganization] at hval
      obtain ⟨u2, hassert, _⟩ := exceptBindOk hval
      cases u2
      exact assertAllNodesExist_ok _ _ _ hassert p hp
    · exact ih h o2 ho3 p hp

/-- A successful channel pass resolves every channel peer against the
global peer section. -/
theorem validateChannels_ok_peers (go gp : List String) :
    ∀ (chs : List ChannelConfig) (m m2 : List String),
      validateChannels go gp chs m = Except.ok m2 →
      ∀ ch ∈ chs, ∀ p ∈ ch.peers, gp.contains p = true := by
  intro chs
  induction chs with
  | nil => intro _ _ _ ch hch; exact absurd hch (List.not_mem_nil ch)
  | cons ch rest ih =>
    intro m m2 h ch2 hch2 p hp
    rw [validateChannels] at h
    obtain ⟨m3, hval, h⟩ := exceptBindOk h
    rcases List.mem_cons.mp hch2 with rfl | hch3
    · rw [validateChannel] at hval
      obtain ⟨u1, _, hval⟩ := exceptBindOk hval
      obtain ⟨u2, _, hval⟩ := exceptBindOk hval
      obtain ⟨u3, hassert, _⟩ := exceptBindOk hval
      cases u3
      exact assertAllNodesExist_ok _ _ _ hassert p hp
    · exact ih m3 m2 h ch2 hch3 p hp

/-- The TLS flag after the orderer loop. -/
theorem validateOrderers_tls :
    ∀ (os : List OrdererConfig) (b t : Bool), validateOrderers os b = Except.ok t →
      t = (b || os.any (fun o => urlStartsWith o.url "grpcs://")) := by
  intro os
  induction os with
  | nil => intro b t h; cases h; simp
  | cons o rest ih =>
    intro b t h
    rw [validateOrderers] at h
    by_cases hsec : urlStartsWith o.url "grpcs://" = true
    · rw [if_pos hsec] at h
      by_cases hcert : o.hasTlsCaCerts = true
      · rw [if_pos hcert] at h
        have := ih true t h
        simp [this, hsec]
      · rw [if_neg hcert] at h; cases h
    · rw [if_neg hsec] at h
      have ht := ih b t h
      have hf : urlStartsWith o.url "grpcs://" = false := by
        cases hh : urlStartsWith o.url "grpcs://"
        · rfl
        · exact absurd hh hsec
      simp [ht, hf]

/-- The TLS flag after validating one peer endpoint. -/
theorem peerTlsFlag_ok (p : PeerConfig) (tls t : Bool)
    (h : peerTlsFlag p tls = Except.ok t) :
    t = (tls || urlStartsWith p.url "grpcs://") := by
  rw [peerTlsFlag] at h
  by_cases hsec : urlStartsWith p.url "grpcs://" = true
  · rw [if_pos hsec] at h
    by_cases hcert : p.hasTlsCaCerts = true
    · rw [if_pos hcert] at h; cases h; simp [hsec]
    · rw [if_neg hcert] at h; cases h
  · rw [if_neg hsec] at h
    cases h
    have hf : urlStartsWith p.url "grpcs://" = false := by
      cases hh : urlStartsWith p.url "grpcs://"
      · rfl
      · exact absurd hh hsec
    simp [hf]

/-- The TLS and compatibility flags after validating one peer. -/
theorem validatePeer_flags (p : PeerConfig) (tls compat : Bool) (r : Bool × Bool)
    (h : validatePeer p tls compat = Except.ok r) :
    r.1 = (tls || urlStartsWith p.url "grpcs://")
      ∧ r.2 = (compat || p.eventUrl.isSome) := by
  rw [validatePeer] at h
  split at h
  · cases h
  · rename_i tls2 hf
    have htls2 := peerTlsFlag_ok p tls tls2 hf
    split at h
    · rename_i hev
      cases h
      simp [htls2, hev]
    · rename_i ev hev
      split at h
      · cases h
      · cases h
        simp [htls2, hev]

/-- The TLS and compatibility flags after the peer loop. -/
theorem validatePeers_flags :
    ∀ (ps : List PeerConfig) (b c : Bool) (r : Bool × Bool),
      validatePeers ps b c = Except.ok r →
      r.1 = (b || ps.any (fun p => urlStartsWith p.url "grpcs://"))
        ∧ r.2 = (c || ps.any (fun p => p.eventUrl.isSome)) := by
  intro ps
  induction ps with
  | nil => intro b c r h; cases h; simp
  | cons p rest ih =>
    intro b c r h
    rw [validatePeers] at h
    obtain ⟨r1, hp, h⟩ := exceptBindOk h
    obtain ⟨h1, h2⟩ := validatePeer_flags p b c r1 hp
    obtain ⟨ih1, ih2⟩ := ih r1.1 r1.2 r h
    constructor
    · rw [ih1, h1]; simp [Bool.or_assoc]
    · rw [ih2, h2]; simp [Bool.or_assoc]

/-- The TLS flag after validating one CA endpoint. -/
theorem caTlsFlag_ok (ca : CaConfig) (tls t : Bool)
    (h : caTlsFlag ca tls = Except.ok t) :
    t = (tls || urlStartsWith ca.url "https://") := by
  rw [caTlsFlag] at h
  by_cases hsec : urlStartsWith ca.url "https://" = true
  · rw [if_pos hsec] at h
    by_cases hcert : ca.hasTlsCaCerts = true
    · rw [if_pos hcert] at h; cases h; simp [hsec]
    · rw [if_neg hcert] at h; cases h
  · rw [if_neg hsec] at h
    cases h
    have hf : urlStartsWith ca.url "https://" = false := by
      cases hh : urlStartsWith ca.url "https://"
      · rfl
      · exact absurd hh hsec
    simp [hf]

/-- The TLS flag after the certificate-authority loop. -/
theorem validateCas_tls (orgs : List OrgConfig) :
    ∀ (cas : List CaConfig) (b : Bool) (pc : List String) (r : Bool × List String),
      validateCas orgs cas b pc = Except.ok r →
      r.1 = (b || cas.any (fun ca => urlStartsWith ca.url "https://")) := by
  intro cas
  induction cas with
  | nil => intro b pc r h; cases h; simp
  | cons ca rest ih =>
    intro b pc r h
    rw [validateCas] at h
    split at h
    · cases h
    · rename_i pc2 hpc
      split at h
      · cases h
      · rename_i t2 ht
        have hih := ih t2 pc2 r h
        have h2 := caTlsFlag_ok ca b t2 ht
        rw [hih, h2]
        simp [Bool.or_assoc]

/-- A successful orderer TLS-consistency check means every orderer is
secured. -/
theorem checkOrderersTls_ok :
    ∀ (os : List OrdererConfig), checkOrderersTls os = Except.ok () →
      ∀ o ∈ os, urlStartsWith o.url "grpcs://" = true := by
  intro os
  induction os with
  | nil => intro _ o ho; exact absurd ho (List.not_mem_nil o)
  | cons o rest ih =>
    intro h o2 ho2
    rw [checkOrderersTls] at h
    by_cases hcert : (!o.hasTlsCaCerts) = true
    · rw [if_pos hcert] at h; cases h
    · rw [if_neg hcert] at h
      by_cases hsec : (!(urlStartsWith o.url "grpcs://")) = true
      · rw [if_pos hsec] at h; cases h
      · rw [if_neg hsec] at h
        rcases List.mem_cons.mp ho2 with rfl | ho3
        · cases hh : urlStartsWith o2.url "grpcs://"
          · rw [hh] at hsec; simp at hsec
          · rfl
        · exact ih h o2 ho3

/-- A successful peer TLS-consistency check means every peer endpoint is
secured, and in compatibility mode every event endpoint as well. -/
theorem checkPeersTls_ok (compat : Bool) :
    ∀ (ps : List PeerConfig), checkPeersTls compat ps = Except.ok () →
      ∀ p ∈ ps, urlStartsWith p.url "grpcs://" = true ∧
        (compat = true → urlStartsWith (p.eventUrl.getD "") "grpcs://" = true) := by
  intro ps
  induction ps with
  | nil => intro _ p hp; exact absurd hp (List.not_mem_nil p)
  | cons p rest ih =>
    intro h p2 hp2
    rw [checkPeersTls] at h
    by_cases hcert : (!p.hasTlsCaCerts) = true
    · rw [if_pos hcert] at h; cases h
    · rw [if_neg hcert] at h
      by_cases hsec : (!(urlStartsWith p.url "grpcs://")) = true
      · rw [if_pos hsec] at h; cases h
      · rw [if_neg hsec] at h
        by_cases hevent : (compat && !(urlStartsWith (p.eventUrl.getD "") "grpcs://")) = true
        · rw [if_pos hevent] at h; cases h
        · rw [if_neg hevent] at h
          rcases List.mem_cons.mp hp2 with rfl | hp3
          · constructor
            · cases hh : urlStartsWith p2.url "grpcs://"
              · rw [hh] at hsec; simp at hsec
              · rfl
            · intro hcompat
              cases hh : urlStartsWith (p2.eventUrl.getD "") "grpcs://"
              · rw [hcompat, hh] at hevent; simp at hevent
              · rfl
          · exact ih h p2 hp3

/-- A successful certificate-authority TLS-consistency check means every
CA endpoint is secured. -/
theorem checkCasTls_ok :
    ∀ (cas : List CaConfig), checkCasTls cas = Except.ok () →
      ∀ ca ∈ cas, urlStartsWith ca.url "https://" = true := by
  intro cas
  induction cas with
  | nil => intro _ ca hca; exact absurd hca (List.not_mem_nil ca)
  | cons ca rest ih =>
    intro h ca2 hca2
    rw [checkCasTls] at h
    by_cases hcert : (!ca.hasTlsCaCerts) = true
    · rw [if_pos hcert] at h; cases h
    · rw [if_neg hcert] at h
      by_cases hsec : (!(urlStartsWith ca.url "https://")) = true
      · rw [if_pos hsec] at h; cases h
      · rw [if_neg hsec] at h
        rcases List.mem_cons.mp hca2 with rfl | hca3
        · cases hh : urlStartsWith ca2.url "https://"
          · rw [hh] at hsec; simp at hsec
          · rfl
        · exact ih h ca2 hca3

/-- Inversion of the whole validation pass into the section passes the
accessors and the TLS property depend on. -/
theorem validateNetworkConfiguration_parts (cfg : NetworkConfig)
    (hok : validateNetworkConfiguration cfg = Except.ok ()) :
    (∃ m, validateChannels (ordererNames cfg) (peerNames cfg) cfg.channels []
        = Except.ok m) ∧
    validateOrganizations (peerNames cfg) (caNames cfg) cfg.organizations
      = Except.ok () ∧
    (∃ (tls0 : Bool) (r1 : Bool × Bool) (r2 : Bool × List String),
      validateOrderers cfg.orderers false = Except.ok tls0 ∧
      validatePeers cfg.peers tls0 false = Except.ok r1 ∧
      validateCas cfg.organizations cfg.certificateAuthorities r1.1 [] = Except.ok r2 ∧
      (r2.1 = true →
        checkOrderersTls cfg.orderers = Except.ok () ∧
        checkPeersTls r1.2 cfg.peers = Except.ok () ∧
        checkCasTls cfg.certificateAuthorities = Except.ok ())) := by
  unfold validateNetworkConfiguration at hok
  obtain ⟨u1, _, hok⟩ := exceptBindOk hok
  obtain ⟨requiredCas, _, hok⟩ := exceptBindOk hok
  obtain ⟨u2, _, hok⟩ := exceptBindOk hok
  obtain ⟨m, hchan, hok⟩ := exceptBindOk hok
  obtain ⟨u3, _, hok⟩ := exceptBindOk hok
  obtain ⟨u4, horgs, hok⟩ := exceptBindOk hok
  obtain ⟨u5, _, hok⟩ := exceptBindOk hok
  obtain ⟨tls0, hord, hok⟩ := exceptBindOk hok
  obtain ⟨u6, _, hok⟩ := exceptBindOk hok
  obtain ⟨r1, hpeers, hok⟩ := exceptBindOk hok
  obtain ⟨u7, _, hok⟩ := exceptBindOk hok
  obtain ⟨r2, hcas, hok⟩ := exceptBindOk hok
  obtain ⟨u8, _, hok⟩ := exceptBindOk hok
  obtain ⟨u9, htls, hok⟩ := exceptBindOk hok
  cases u4
  refine ⟨⟨m, hchan⟩, horgs, tls0, r1, r2, hord, hpeers, hcas, fun h2 => ?_⟩
  rw [if_pos h2, checkTlsConsistencyAll] at htls
  obtain ⟨v1, hco, htls⟩ := exceptBindOk htls
  obtain ⟨v2, hcp, htls⟩ := exceptBindOk htls
  cases v1
  cases v2
  cases u9
  exact ⟨hco, hcp, htls⟩
theorem triggerEnabled_false (s : RegistrationState)
    (h1 : s.timerActive = false) (h2 : s.registered = false) :
    ∀ u, triggerEnabled s u = false := fun u => by
  cases u <;> simp [triggerEnabled, h1, h2]

/-- Behavior of the query-result loop: the error flag is raised exactly
when some result is an error, the recorded result is the last non-error
payload (falling back to the incoming one), and the verdict is
untouched. -/
theorem processQueryResults_spec (targets : List String) :
    ∀ (results : List (Except String String)) (idx : Nat) (st : TxStatus)
      (errMsg : Option String),
      ((processQueryResults targets results idx st errMsg).2.isSome
          = (errMsg.isSome || results.any (fun r => !r.isOk))) ∧
      ((processQueryResults targets results idx st errMsg).1.result
          = results.foldl
              (fun acc r => match r with
                | Except.ok p => some p
                | Except.error _ => acc) st.result) ∧
      ((processQueryResults targets results idx st errMsg).1.verdict = st.verdict) := by
  intro results
  induction results with
  | nil =>
    intro idx st errMsg
    exact ⟨by simp [processQueryResults], rfl, rfl⟩
  | cons r rest ih =>
    intro idx st errMsg
    cases r with
    | error m =>
      obtain ⟨ih1, ih2, ih3⟩ := ih (idx + 1)
        (st.set ("endorsement_result_error_" ++ ((targets[idx]?).getD "undefined")))
        (some ("Endorsement error from " ++ ((targets[idx]?).getD "undefined") ++ ": " ++ m))
      refine ⟨?_, ?_, ?_⟩
      · simpa [processQueryResults, Except.isOk, Except.toBool] using ih1
      · simpa [processQueryResults, TxStatus.set] using ih2
      · simpa [processQueryResults, TxStatus.set] using ih3
    | ok p =>
      obtain ⟨ih1, ih2, ih3⟩ := ih (idx + 1)
        ((st.setResult p).set ("endorsement_result_" ++ ((targets[idx]?).getD "undefined")))
        errMsg
      refine ⟨?_, ?_, ?_⟩
      · simpa [processQueryResults, Except.isOk, Except.toBool] using ih1
      · simpa [processQueryResults, TxStatus.set, TxStatus.setResult] using ih2
      · simpa [processQueryResults, TxStatus.set, TxStatus.setResult] using ih3

/-- Claim C5: the spec states that a channel with an empty chaincode
list is rejected by validation; the code reads the size property of a
JavaScript array (which is undefined, arrays expose length), so the
emptiness guard never fires and the configuration is accepted. -/
theorem validation_accepts_empty_chaincode_list :
    exampleEmptyChaincodesConfig.channels.map (fun ch => ch.chaincodes) = [[]] ∧
    validateNetworkConfiguration exampleEmptyChaincodesConfig = Except.ok () := by
  decide

/-- Claim C8: automatic target selection over the prepared cache entry
returns one peer per organization holding an eligible target peer, the
peer being the element of the per-organization eligible list at the load
index modulo the list length, and the selection is invariant under
shifting the load index by any multiple of that length. -/
theorem assemble_target_peers_round_robin (targetPeers : List String)
    (orgOf : String → String) (peersOfOrgAndChannel : String → List String) (i k : Nat)
    (hne : ∀ e ∈ prepareTargetPeerCacheEntry targetPeers orgOf peersOfOrgAndChannel,
      e.2 ≠ []) :
    ((assembleRandomTargetPeers
        (prepareTargetPeerCacheEntry targetPeers orgOf peersOfOrgAndChannel) i).length
      = (prepareTargetPeerCacheEntry targetPeers orgOf peersOfOrgAndChannel).length) ∧
    (∀ (j : Nat) (e : String × List String),
      (prepareTargetPeerCacheEntry targetPeers orgOf peersOfOrgAndChannel)[j]?
        = some e →
      ∃ p, (assembleRandomTargetPeers
          (prepareTargetPeerCacheEntry targetPeers orgOf peersOfOrgAndChannel) i)[j]?
          = some (some p) ∧
        p ∈ e.2 ∧ e.2[i % e.2.length]? = some p) ∧
    (∀ (j : Nat) (e : String × List String),
      (prepareTargetPeerCacheEntry targetPeers orgOf peersOfOrgAndChannel)[j]?
        = some e →
      (assembleRandomTargetPeers
          (prepareTargetPeerCacheEntry targetPeers orgOf peersOfOrgAndChannel)
          (i + k * e.2.length))[j]?
        = (assembleRandomTargetPeers
            (prepareTargetPeerCacheEntry targetPeers orgOf peersOfOrgAndChannel) i)[j]?) := by
  refine ⟨List.length_map _ _, ?_, ?_⟩
  · intro j e hj
    have hmem : e ∈ prepareTargetPeerCacheEntry targetPeers orgOf peersOfOrgAndChannel := by
      obtain ⟨hlt, heq⟩ := List.getElem?_eq_some.mp hj
      exact heq ▸ List.getElem_mem hlt
    have hlen : 0 < e.2.length := List.length_pos.mpr (hne e hmem)
    have hmod : i % e.2.length < e.2.length := Nat.mod_lt _ hlen
    obtain ⟨p, hp⟩ : ∃ p, e.2[i % e.2.length]? = some p :=
      ⟨_, List.getElem?_eq_getElem hmod⟩
    refine ⟨p, ?_, ?_, hp⟩
    · rw [assembleRandomTargetPeers, List.getElem?_map, hj]
      simp [pickByCounter, hp]
    · obtain ⟨hlt2, heq2⟩ := List.getElem?_eq_some.mp hp
      exact heq2 ▸ List.getElem_mem hlt2
  · intro j e hj
    rw [assembleRandomTargetPeers, assembleRandomTargetPeers, List.getElem?_map,
      List.getElem?_map, hj]
    simp [pickByCounter, Nat.add_mul_mod_self_right]

/-- Witness for C8 (the example scenario of the spec): OrgA owns peers
p1 and p2, OrgB owns p3, the contract targets p1 and p3; at load index 0
the OrgA slot selects p1, the only eligible OrgA peer. -/
theorem assemble_target_peers_round_robin_witness :
    ∃ p, (assembleRandomTargetPeers
        (prepareTargetPeerCacheEntry exampleChaincodeTargets exampleOrgOf
          exampleOrgChannelPeers) 0)[0]? = some (some p) ∧
      p ∈ (("OrgA", ["p1"]) : String × List String).2 ∧
      (("OrgA", ["p1"]) : String × List String).2[0 % (["p1"] : List String).length]?
        = some p :=
  (assemble_target_peers_round_robin exampleChaincodeTargets exampleOrgOf
    exampleOrgChannelPeers 0 1 (by decide)).2.1 0 ("OrgA", ["p1"]) (by decide)

/-- Claim C9: the first trigger that reaches a commit-event registration
resolves its promise (the model has no rejection path, so the promise
never rejects and never stays pending past the timer), cancels the
timer, unregisters the transaction listener — after which no trigger is
enabled, so the registration is consumed at most once — and the
resolution is the synthetic unsuccessful timeout outcome on timeout,
carries the commit validity on a genuine event, and is unsuccessful on
an event-hub error. -/
theorem event_registration_consumed_once (peer : String) (st : TxStatus) (t : EventTrigger) :
    ((registrationStep peer (initialRegistrationState st) t).resolution.isSome = true) ∧
    ((registrationStep peer (initialRegistrationState st) t).timerActive = false) ∧
    ((registrationStep peer (initialRegistrationState st) t).registered = false) ∧
    (∀ u, triggerEnabled (registrationStep peer (initialRegistrationState st) t) u = false) ∧
    (∀ now, t = EventTrigger.timeout now →
      (registrationStep peer (initialRegistrationState st) t).resolution
        = some (EventNotification.mk false ("Commit timeout on " ++ peer) now)) ∧
    (∀ code now, t = EventTrigger.txEvent code now →
      ∃ r, (registrationStep peer (initialRegistrationState st) t).resolution = some r ∧
        r.time = now ∧ (r.successful = true ↔ code = "VALID")) ∧
    (∀ m now, t = EventTrigger.hubError m now →
      (registrationStep peer (initialRegistrationState st) t).resolution
        = some (EventNotification.mk false ("Event hub error on " ++ peer) now)) := by
  cases t with
  | timeout now =>
    refine ⟨rfl, rfl, rfl, triggerEnabled_false _ rfl rfl,
      fun now2 h => ?_, fun code2 now2 h => by simp at h, fun m2 now2 h => by simp at h⟩
    cases h
    rfl
  | txEvent code now =>
    by_cases hc : code = "VALID"
    · subst hc
      have hstep : registrationStep peer (initialRegistrationState st)
          (EventTrigger.txEvent "VALID" now)
          = RegistrationState.mk false false
              (some (EventNotification.mk true "undefined" now))
              (((initialRegistrationState st).status.setVerification true).set
                ("commit_success_" ++ peer)) := by
        simp [registrationStep, initialRegistrationState, resolveOnce]
      refine ⟨by rw [hstep]; rfl, by rw [hstep], by rw [hstep],
        triggerEnabled_false _ (by rw [hstep]) (by rw [hstep]),
        fun now2 h => by simp at h, fun code2 now2 h => ?_, fun m2 now2 h => by simp at h⟩
      cases h
      exact ⟨EventNotification.mk true "undefined" now, by rw [hstep], rfl, by simp⟩
    · have hstep : registrationStep peer (initialRegistrationState st)
          (EventTrigger.txEvent code now)
          = RegistrationState.mk false false
              (some (EventNotification.mk false
                ("Commit error on " ++ peer ++ " with code " ++ code) now))
              (((initialRegistrationState st).status.setVerification true).set
                ("commit_error_" ++ peer)) := by
        simp [registrationStep, initialRegistrationState, resolveOnce, hc]
      refine ⟨by rw [hstep]; rfl, by rw [hstep], by rw [hstep],
        triggerEnabled_false _ (by rw [hstep]) (by rw [hstep]),
        fun now2 h => by simp at h, fun code2 now2 h => ?_, fun m2 now2 h => by simp at h⟩
      cases h
      exact ⟨EventNotification.mk false
        ("Commit error on " ++ peer ++ " with code " ++ code) now,
        by rw [hstep], rfl, by simp [hc]⟩
  | hubError m now =>
    refine ⟨rfl, rfl, rfl, triggerEnabled_false _ rfl rfl,
      fun now2 h => by simp at h, fun code2 now2 h => by simp at h, fun m2 now2 h => ?_⟩
    cases h
    rfl

/-- Witness for C9: a timeout trigger at local time 7 resolves the
registration with the synthetic unsuccessful timeout outcome. -/
theorem event_registration_consumed_once_witness :
    (registrationStep "peer0"
        (initialRegistrationState (TxStatus.mk TxVerdict.unset none false none []))
        (EventTrigger.timeout 7)).resolution
      = some (EventNotification.mk false "Commit timeout on peer0" 7) :=
  (event_registration_consumed_once "peer0"
    (TxStatus.mk TxVerdict.unset none false none []) (EventTrigger.timeout 7)).2.2.2.2.1 7 rfl

/-- Claim C10: a query fails exactly when some target peer returned an
error, succeeds exactly when none did, and in both cases the recorded
query result is the last non-error payload. -/
theorem query_verdict_and_result (env : QueryEnv) (results : List (Except String String))
    (hknown : env.invokerKnown = true)
    (houtcome : env.queryOutcome = QueryPhaseOutcome.responded results) :
    ∃ st, submitSingleQuery env = Except.ok st ∧
      (results.any (fun r => !r.isOk) = true → st.verdict = TxVerdict.fail) ∧
      (results.any (fun r => !r.isOk) = false → st.verdict = TxVerdict.success) ∧
      st.result = lastOkPayload results := by
  obtain ⟨h1, h2, _⟩ := processQueryResults_spec env.targetPeers results 0
    (((TxStatus.mk TxVerdict.unset none false none []).set "request_type").setVerification
      true) none
  cases herr : (processQueryResults env.targetPeers results 0
      (((TxStatus.mk TxVerdict.unset none false none []).set "request_type").setVerification
        true) none).2 with
  | none =>
    rw [herr] at h1
    simp only [Option.isSome_none, Bool.false_or] at h1
    have hsubmit : submitSingleQuery env
        = Except.ok ((processQueryResults env.targetPeers results 0
            (((TxStatus.mk TxVerdict.unset none false none []).set
                "request_type").setVerification true) none).1.setStatusSuccess none) := by
      simp only [submitSingleQuery, hknown, Bool.not_true, Bool.false_eq_true, if_false,
        houtcome, herr]
    refine ⟨_, hsubmit, fun hbad => ?_, fun _ => rfl, ?_⟩
    · rw [hbad] at h1
      exact (Bool.false_ne_true h1).elim
    · simpa [TxStatus.setStatusSuccess, TxStatus.setVerification, TxStatus.set,
        lastOkPayload] using h2
  | some m =>
    rw [herr] at h1
    simp only [Option.isSome_some, Bool.false_or] at h1
    have hsubmit : submitSingleQuery env
        = Except.ok (processQueryResults env.targetPeers results 0
            (((TxStatus.mk TxVerdict.unset none false none []).set
                "request_type").setVerification true) none).1.setStatusFail := by
      simp only [submitSingleQuery, hknown, Bool.not_true, Bool.false_eq_true, if_false,
        houtcome, herr]
    refine ⟨_, hsubmit, fun _ => rfl, fun hgood => ?_, ?_⟩
    · rw [hgood] at h1
      exact (Bool.false_ne_true h1.symm).elim
    · simpa [TxStatus.setStatusFail, TxStatus.setVerification, TxStatus.set,
        lastOkPayload] using h2

/-- Evaluation of a successful Except bind. -/
theorem except_bind_ok_eval {ε α β : Type} (a : α) (f : α → Except ε β) :
    (Except.ok a >>= f : Except ε β) = f a := rfl

/-- Claim C6: in a configuration accepted by validation in which at
least one node declares secured transport, every orderer and peer uses
grpcs, every certificate authority uses https, and every provided peer
event URL uses grpcs — no mixed-transport network is accepted. -/
theorem tls_uniformity (cfg : NetworkConfig)
    (hsec : someNodeSecured cfg = true)
    (hok : validateNetworkConfiguration cfg = Except.ok ()) :
    (∀ o ∈ cfg.orderers, urlStartsWith o.url "grpcs://" = true) ∧
    (∀ p ∈ cfg.peers, urlStartsWith p.url "grpcs://" = true) ∧
    (∀ ca ∈ cfg.certificateAuthorities, urlStartsWith ca.url "https://" = true) ∧
    (∀ p ∈ cfg.peers, ∀ ev, p.eventUrl = some ev → urlStartsWith ev "grpcs://" = true) := by
  obtain ⟨_, _, tls0, r1, r2, hord, hpeers, hcas, hchecks⟩ :=
    validateNetworkConfiguration_parts cfg hok
  have ht0 := validateOrderers_tls cfg.orderers false tls0 hord
  obtain ⟨ht1, hc1⟩ := validatePeers_flags cfg.peers tls0 false r1 hpeers
  have ht2 := validateCas_tls cfg.organizations cfg.certificateAuthorities r1.1 [] r2 hcas
  have htls : r2.1 = true := by
    rw [ht2, ht1, ht0]
    simp only [someNodeSecured, Bool.or_eq_true] at hsec
    rcases hsec with (h | h) | h <;> simp [h]
  obtain ⟨hco, hcp, hcc⟩ := hchecks htls
  refine ⟨checkOrderersTls_ok cfg.orderers hco, ?_, checkCasTls_ok _ hcc, ?_⟩
  · intro p hp
    exact (checkPeersTls_ok r1.2 cfg.peers hcp p hp).1
  · intro p hp ev hev
    have hcompat : r1.2 = true := by
      rw [hc1]
      have hsome : p.eventUrl.isSome = true := by rw [hev]; rfl
      simp only [Bool.false_or, List.any_eq_true]
      exact ⟨p, hp, hsome⟩
    have h2 := (checkPeersTls_ok r1.2 cfg.peers hcp p hp).2 hcompat
    rw [hev] at h2
    simpa using h2

/-- Witness for C6: the fully secured example configuration validates,
and the theorem reports every node secured. -/
theorem tls_uniformity_witness :
    (∀ o ∈ exampleTlsConfig.orderers, urlStartsWith o.url "grpcs://" = true) ∧
    (∀ p ∈ exampleTlsConfig.peers, urlStartsWith p.url "grpcs://" = true) ∧
    (∀ ca ∈ exampleTlsConfig.certificateAuthorities,
      urlStartsWith ca.url "https://" = true) ∧
    (∀ p ∈ exampleTlsConfig.peers, ∀ ev, p.eventUrl = some ev →
      urlStartsWith ev "grpcs://" = true) :=
  tls_uniformity exampleTlsConfig (by decide) (by decide)

/-- Counterexample for C7: validation accepts a configuration holding a
peer that no organization owns and that belongs to no channel, yet both
accessors throw for that accepted peer name. -/
theorem validated_config_accessor_throws :
    validateNetworkConfiguration exampleUnownedPeerConfig = Except.ok () ∧
    (peerNames exampleUnownedPeerConfig).contains "peerX" = true ∧
    getOrganizationOfPeer exampleUnownedPeerConfig "peerX"
      = Except.error "Could not find the owner organization of peerX" ∧
    getChannelsOfPeer exampleUnownedPeerConfig "peerX"
      = Except.error "peerX does not belong to any channel" := by
  decide

/-- Claim C7 (amended): after a successful validation the accessors do
not throw for any peer reference that validation actually checked:
getOrganizationOfPeer succeeds for every peer owned by some
organization, and getChannelsOfPeer succeeds for every peer that is a
member of some channel. -/
theorem accessors_ok_for_owned_peer (cfg : NetworkConfig) (peer : String)
    (hok : validateNetworkConfiguration cfg = Except.ok ()) :
    ((∃ o ∈ cfg.organizations, peer ∈ o.peers) →
      (getOrganizationOfPeer cfg peer).isOk = true) ∧
    ((∃ ch ∈ cfg.channels, peer ∈ ch.peers) →
      (getChannelsOfPeer cfg peer).isOk = true) := by
  obtain ⟨⟨m, hchan⟩, horgs, _⟩ := validateNetworkConfiguration_parts cfg hok
  constructor
  · rintro ⟨o, ho, hp⟩
    have hglobal : (peerNames cfg).contains peer = true :=
      validateOrganizations_ok (peerNames cfg) (caNames cfg) cfg.organizations horgs
        o ho peer hp
    have hassert : assertPeerExistsIn cfg peer = Except.ok () := by
      rw [assertPeerExistsIn, if_pos hglobal]
    have hfind : (cfg.organizations.find? (fun o => o.peers.contains peer)).isSome
        = true := by
      rw [List.find?_isSome]
      exact ⟨o, ho, List.elem_eq_true_of_mem hp⟩
    cases hfound : cfg.organizations.find? (fun o => o.peers.contains peer) with
    | none => rw [hfound] at hfind; simp at hfind
    | some o2 =>
      have heval : getOrganizationOfPeer cfg peer = Except.ok o2.name := by
        rw [getOrganizationOfPeer, hassert, except_bind_ok_eval, hfound]
      rw [heval]
      rfl
  · rintro ⟨ch, hch, hp⟩
    have hglobal : (peerNames cfg).contains peer = true :=
      validateChannels_ok_peers (ordererNames cfg) (peerNames cfg) cfg.channels [] m
        hchan ch hch peer hp
    have hassert : assertPeerExistsIn cfg peer = Except.ok () := by
      rw [assertPeerExistsIn, if_pos hglobal]
    have hmemf : ch ∈ cfg.channels.filter (fun ch => ch.peers.contains peer) :=
      List.mem_filter.mpr ⟨hch, List.elem_eq_true_of_mem hp⟩
    have hlen : ((cfg.channels.filter (fun ch => ch.peers.contains peer)).map
        (fun ch => ch.name)).length ≠ 0 := by
      rw [List.length_map]
      exact Nat.pos_iff_ne_zero.mp (List.length_pos.mpr (List.ne_nil_of_mem hmemf))
    have heval : getChannelsOfPeer cfg peer
        = Except.ok ((cfg.channels.filter (fun ch => ch.peers.contains peer)).map
            (fun ch => ch.name)) := by
      rw [getChannelsOfPeer, hassert, except_bind_ok_eval, if_neg hlen]
    rw [heval]
    rfl

/-- Witness for C7 (amended): in the base example configuration, peer0
is owned by Org1 and is a member of channel c1, and both accessors
succeed for it. -/
theorem accessors_ok_for_owned_peer_witness :
    (getOrganizationOfPeer exampleBaseConfig "peer0").isOk = true ∧
    (getChannelsOfPeer exampleBaseConfig "peer0").isOk = true :=
  ⟨(accessors_ok_for_owned_peer exampleBaseConfig "peer0" (by decide)).1
      ⟨exampleOrg, by decide, by decide⟩,
    (accessors_ok_for_owned_peer exampleBaseConfig "peer0" (by decide)).2
      ⟨exampleChannel, by decide, by decide⟩⟩

/-- Witness for C10: one successful and one erroring target peer yield a
failed status that still records the successful payload. -/
theorem query_verdict_and_result_witness :
    ∃ st, submitSingleQuery
        (QueryEnv.mk "client0.org1" true ["peer0", "peer1"]
          (QueryPhaseOutcome.responded [Except.ok "value", Except.error "boom"]))
        = Except.ok st ∧
      (([Except.ok "value", Except.error "boom"] :
          List (Except String String)).any (fun r => !r.isOk) = true →
        st.verdict = TxVerdict.fail) ∧
      (([Except.ok "value", Except.error "boom"] :
          List (Except String String)).any (fun r => !r.isOk) = false →
        st.verdict = TxVerdict.success) ∧
      st.result = lastOkPayload [Except.ok "value", Except.error "boom"] :=
  query_verdict_and_result
    (QueryEnv.mk "client0.org1" true ["peer0", "peer1"]
      (QueryPhaseOutcome.responded [Except.ok "value", Except.error "boom"]))
    [Except.ok "value", Except.error "boom"] rfl rfl
